import Mathlib

/-!
Verification of the BI dashboard's analysis pipeline

Shallow embedding of the repository's analysis core:

* `src/reasoning.engine.js` — `parseVal`, `computeFullStats`,
  `computeCorrelation`, `getCategoricalStats`, `biAnalystBrain`,
  `generateHash`, `cleanLabel`, `runAuditLogic`, `finishAnalysis`;
* `src/data.engine.js` — `prepareMasterData`;
* the app-core export surface — `validateReportCompleteness`, `exportReport`.

Modelling conventions:

* Rows are mappings from header to *trimmed string* values, exactly the shape
  `DataEngine.storeDataset` normalizes every stored row into (all values are
  stringified and trimmed before a dataset is admitted).  A missing column
  reads as JavaScript `undefined`, modelled by `Option.none`.
* JavaScript numbers are modelled by exact rationals `ℚ`; `Math.sqrt` is the
  real square root, so values downstream of a square root live in `ℝ`.
  String rendering of numbers (`toFixed`, `toLocaleString`) is modelled by
  carrying the (decimally rounded) numeric value itself inside text templates.
* JavaScript objects used as insertion-ordered dictionaries (`freq`,
  `statisticsModel`, the dataset collection) are modelled by association
  lists in insertion order.
-/

namespace BI

/-- One stored row: association list from (trimmed) header to (trimmed) string
value, as produced by `DataEngine.storeDataset`. -/
abbrev Row := List (String × String)

/-- JavaScript property read `d[k]`: `none` models `undefined`. -/
def lookupField (r : Row) (k : String) : Option String :=
  (r.find? (fun p => p.1 == k)).map (·.2)

/-- The `String(v || "")` for a possibly-undefined string value: `undefined` and
the empty string are falsy, both yielding `""`. -/
def jsOrEmpty (v : Option String) : String := v.getD ""

/-- The `v || dflt` for a possibly-undefined string value: `undefined` and `""`
are falsy. -/
def jsOrString (v : Option String) (dflt : String) : String :=
  match v with
  | none => dflt
  | some s => if s = "" then dflt else s

/-- The `q || 1` for a number: `0` is falsy (the source guard `(x || 1)`). -/
def jsOrOne {α : Type} [Zero α] [One α] [DecidableEq α] (q : α) : α :=
  if q = 0 then 1 else q

/-- The `String.prototype.trim()`: strip leading and trailing whitespace
(char-list implementation, so concrete values reduce). -/
def jsTrim (s : String) : String :=
  String.mk
    (((s.toList.dropWhile Char.isWhitespace).reverse.dropWhile
        Char.isWhitespace).reverse)

/-- The `String.prototype.toLowerCase()` (char-wise, so concrete values
reduce). -/
def jsToLower (s : String) : String :=
  String.mk (s.toList.map Char.toLower)

/-- The `String.prototype.replace(/[^0-9.-]/g, "")`: keep only digits, `.`, `-`. -/
def stripNonNumeric (s : String) : String :=
  String.mk (s.toList.filter fun c => c.isDigit || c == '.' || c == '-')

/-- Value of a digit list read as a decimal integer. -/
def digitsToNat (l : List Char) : ℕ :=
  l.foldl (fun a c => 10 * a + (c.toNat - 48)) 0

/-- Value of a digit list read as a decimal fraction (digits after the dot). -/
def fracToRat (l : List Char) : ℚ :=
  l.foldr (fun c a => (((c.toNat - 48 : ℕ) : ℚ) + a) / 10) 0

/-- JavaScript `parseFloat` on strings over the post-strip alphabet
(digits, `.`, `-`): an optional sign, then the longest prefix
`digits[.digits]`; `none` models `NaN` (no digit found).  The exponent form
cannot survive `stripNonNumeric`, so it is not modelled. -/
def parseFloatQ (s : String) : Option ℚ :=
  let cs := s.toList
  let sgn : ℚ := match cs with
    | '-' :: _ => -1
    | _ => 1
  let rest := match cs with
    | '-' :: t => t
    | '+' :: t => t
    | t => t
  let intDigits := rest.takeWhile Char.isDigit
  let rest2 := rest.dropWhile Char.isDigit
  let fracDigits := match rest2 with
    | '.' :: t => t.takeWhile Char.isDigit
    | _ => []
  if intDigits.isEmpty && fracDigits.isEmpty then none
  else some (sgn * ((digitsToNat intDigits : ℚ) + fracToRat fracDigits))

/-- Embedding of `reasoning.engine.js` `parseVal`: rows are string-valued (see module
comment), so the `typeof v === 'number'` branch is vacuous here; every value
is stringified (`String(v || "")`), stripped to the numeric alphabet, parsed
with `parseFloat`, and defaulted to `0` (`|| 0`) on `NaN`. -/
def parseVal (v : Option String) : ℚ :=
  (parseFloatQ (stripNonNumeric (jsOrEmpty v))).getD 0

/-- The coerced numeric column `field` of a row list (the source's
`nums = data.map(d => parseVal(d[field]))`; the `filter(n => !isNaN(n))`
drops nothing because `parseVal` never returns `NaN` on string rows). -/
def numsOf (data : List Row) (field : String) : List ℚ :=
  data.map fun d => parseVal (lookupField d field)

/-- The statistics record produced by `computeFullStats`.  The source also
stores `stdDev = Math.sqrt(variance)`; the square root of an exact rational
is irrational in general, so it is exposed as the derived real
`FullStats.stdDev` below rather than as a field. -/
structure FullStats where
  mean : ℚ
  median : ℚ
  variance : ℚ
  min : ℚ
  max : ℚ
  range : ℚ
  peak : ℚ
  lowPoint : ℚ
  sum : ℚ
  count : ℕ
  deriving Repr, DecidableEq

/-- The `stdDev = Math.sqrt(variance)` of a statistics record. -/
noncomputable def FullStats.stdDev (s : FullStats) : ℝ :=
  Real.sqrt (s.variance : ℝ)

/-- Embedding of `reasoning.engine.js` `computeFullStats`: descriptive statistics of one
coerced column; `null` (here `none`) when there are no values.  The ascending
`sort((a,b) => a-b)` is the stable sort of the values, which
`List.insertionSort` computes. -/
def computeFullStats (data : List Row) (field : String) : Option FullStats :=
  let nums := numsOf data field
  let count := nums.length
  if count = 0 then none
  else
    let sum := nums.sum
    let avg := sum / (count : ℚ)
    let sorted := nums.insertionSort (· ≤ ·)
    let mn := sorted.getD 0 0
    let mx := sorted.getD (count - 1) 0
    let median :=
      if count % 2 ≠ 0 then sorted.getD (count / 2) 0
      else (sorted.getD (count / 2 - 1) 0 + sorted.getD (count / 2) 0) / 2
    let variance := (nums.map (fun b => (b - avg) ^ 2)).sum / (count : ℚ)
    some {
      mean := avg
      median := median
      variance := variance
      min := mn
      max := mx
      range := mx - mn
      peak := mx
      lowPoint := mn
      sum := sum
      count := count
    }

/-- Population variance of a coerced column, by the same formula
`computeFullStats` uses (`Σ (v - mean)² / n`; `0` for an empty column under
rational division-by-zero). -/
def colVariance (data : List Row) (field : String) : ℚ :=
  let nums := numsOf data field
  let avg := nums.sum / (nums.length : ℚ)
  (nums.map (fun b => (b - avg) ^ 2)).sum / (nums.length : ℚ)

/-- The Pearson numerator `n·ΣXY − ΣX·ΣY` of `computeCorrelation`. -/
def pearsonNum (data : List Row) (x y : String) : ℚ :=
  let xs := numsOf data x
  let ys := numsOf data y
  (xs.length : ℚ) * (xs.zipWith (· * ·) ys).sum - xs.sum * ys.sum

/-- The `n·Σv² − (Σv)²` for one column — the factor of the squared Pearson
denominator contributed by that column. -/
def pearsonDx (data : List Row) (c : String) : ℚ :=
  let vs := numsOf data c
  (vs.length : ℚ) * (vs.map (fun v => v * v)).sum - vs.sum * vs.sum

/-- Embedding of `reasoning.engine.js` `computeCorrelation`: `0` for fewer than two rows;
otherwise the sum-of-products Pearson coefficient, with a `0` guard when the
denominator `Math.sqrt((n·ΣX²−(ΣX)²)·(n·ΣY²−(ΣY)²))` is zero. -/
noncomputable def computeCorrelation (data : List Row) (x y : String) : ℝ :=
  if data.length < 2 then 0
  else
    let denom := Real.sqrt ((pearsonDx data x * pearsonDx data y : ℚ) : ℝ)
    if denom = 0 then 0 else (pearsonNum data x y : ℝ) / denom

/-- The category key of a row: `String(d[x] || 'N/A').trim()` — an absent or
empty-string category reads as the literal key `"N/A"` before trimming. -/
def keyOf (x : String) (d : Row) : String :=
  jsTrim (jsOrString (lookupField d x) "N/A")

/-- The exclusion guard of `getCategoricalStats`:
`!k || k.toLowerCase() === 'null'` after the `"N/A"` substitution and trim. -/
def isExcludedRow (x : String) (d : Row) : Bool :=
  keyOf x d == "" || jsToLower (keyOf x d) == "null"

/-- The `freq[k] = (freq[k] || 0) + v` on an insertion-ordered association list:
add to the existing entry in place, else append a new entry. -/
def insertAdd (acc : List (String × ℚ)) (k : String) (v : ℚ) :
    List (String × ℚ) :=
  match acc with
  | [] => [(k, v)]
  | (k', v') :: rest =>
      if k' = k then (k', v' + v) :: rest else (k', v') :: insertAdd rest k v

/-- One row's effect on the `freq` table: skip excluded rows, otherwise add
the coerced metric to the row's group. -/
def freqStep (x y : String) (acc : List (String × ℚ)) (d : Row) :
    List (String × ℚ) :=
  if isExcludedRow x d then acc
  else insertAdd acc (keyOf x d) (parseVal (lookupField d y))

/-- The grouping pass of `getCategoricalStats`: fold the rows into the
insertion-ordered `freq` table, skipping excluded rows. -/
def buildFreq (data : List Row) (x y : String) : List (String × ℚ) :=
  data.foldl (freqStep x y) []

/-- Embedding of `reasoning.engine.js` `getCategoricalStats`: group the metric by category
key, then `Object.entries(freq).sort((a,b) => b[1]-a[1])` — a stable sort
descending by summed value (`List.insertionSort` with `b.2 ≤ a.2` computes
exactly the stable descending order). -/
def getCategoricalStats (data : List Row) (x y : String) :
    List (String × ℚ) :=
  (buildFreq data x y).insertionSort (fun a b => b.2 ≤ a.2)

/-- The rows that survive the exclusion guard of `getCategoricalStats`. -/
def includedRows (data : List Row) (x : String) : List Row :=
  data.filter (fun d => !isExcludedRow x d)

/-- Total coerced metric of the included rows whose category key is `k`. -/
def groupSum (data : List Row) (x y k : String) : ℚ :=
  (((includedRows data x).filter (fun d => keyOf x d == k)).map
    (fun d => parseVal (lookupField d y))).sum

/-- A fragment of an interpolated template string: literal text or an
interpolated (decimally rounded where the source applies `toFixed`) number.
JavaScript float-to-string rendering itself is not modelled. -/
inductive Piece (α : Type) where
  | txt (s : String)
  | num (q : α)
  deriving DecidableEq

/-- The `x.toFixed(d)` as a number: round to `d` decimal places. -/
def roundTo {α : Type} [LinearOrderedField α] [FloorRing α] (d : ℕ) (q : α) :
    α :=
  ((round (q * 10 ^ d) : ℤ) : α) / 10 ^ d

/-- The `biInterpretation` label record of `biAnalystBrain`. -/
structure BiInterp where
  operationalState : String
  concentrationRisk : String
  stabilityAssessment : String
  efficiencyObservation : String
  varianceStatus : String
  deriving Repr, DecidableEq

/-- One `impactMatrix` entry of `biAnalystBrain`. -/
structure ImpactEntry (α : Type) where
  label : String
  category : String
  detail : List (Piece α)
  threshold : String
  deriving DecidableEq

/-- One `advisory` entry of `biAnalystBrain`. -/
structure AdvisoryEntry (α : Type) where
  action : String
  metric : String
  context : List (Piece α)
  deriving DecidableEq

/-- The fields of a statistics record that `biAnalystBrain` reads.  In the
pipeline this is the `computeFullStats` record (with `stdDev = √variance`);
the claims quantify over arbitrary records, so the fields are free. -/
structure BrainStats (α : Type) where
  mean : α
  stdDev : α
  variance : α
  max : α
  sum : α
  deriving DecidableEq

/-- The delta record `{volShift, peakShift}` of `runAuditLogic`. -/
structure Shifts (α : Type) where
  volShift : α
  peakShift : α
  deriving DecidableEq

/-- The record returned by `biAnalystBrain`. -/
structure BrainOutput (α : Type) where
  biInterpretation : BiInterp
  impactMatrix : List (ImpactEntry α)
  advisory : List (AdvisoryEntry α)
  deriving DecidableEq

/-- Embedding of `reasoning.engine.js` `biAnalystBrain`: threshold labels, the
three-entry impact matrix, and the accumulated advisory list with its
`MAINTAIN` fallback.  Thresholds are the source literals
(`0.5 = 1/2`, `0.8 = 4/5`, `0.7 = 7/10`, `1.2 = 6/5`). -/
def biAnalystBrain {α : Type} [LinearOrderedField α] [FloorRing α]
    (stats : BrainStats α) (shifts : Shifts α) (correlation : α)
    (xLabel yLabel dominantContributor : String) : BrainOutput α :=
  let concentration := stats.max / jsOrOne stats.sum * 100
  let varianceInterpretation :=
    if stats.stdDev / jsOrOne stats.mean > 1 / 2 then "High Variance (Skewed)"
    else "Stable Distribution (Balanced)"
  let biInterpretation : BiInterp :=
    { operationalState :=
        if concentration > 50 then "Highly Concentrated (Siloed)"
        else "Balanced (Distributed)"
      concentrationRisk :=
        if concentration > 40 then "Critical Alpha Dependency"
        else "Stable Diversification"
      stabilityAssessment :=
        if |shifts.volShift| < 10 then "Steady-State Operational"
        else "Volatile Flow Change"
      efficiencyObservation :=
        if stats.mean > 0 ∧ stats.stdDev / stats.mean < 1 / 2 then
          "High Precision Flow"
        else "Dispersed Intensity"
      varianceStatus := varianceInterpretation }
  let impactMatrix : List (ImpactEntry α) :=
    [{ label := "Alpha Node Leverage"
       category :=
         if stats.max > stats.mean * 5 then "High Impact" else "Medium Impact"
       detail :=
         [.txt "Dominant contributor [", .txt dominantContributor,
          .txt "] controls ", .num (roundTo 1 concentration),
          .txt "% of total volume."]
       threshold := "Concentration > 40% triggers dependency risk." },
     { label := "Distribution Stability"
       category :=
         if |stats.stdDev / jsOrOne stats.mean| > 4 / 5 then "Critical Risk"
         else "Stable"
       detail :=
         [.txt "Variance measured at ", .num (roundTo 1 stats.variance),
          .txt " with a StdDev of ", .num (roundTo 1 stats.stdDev), .txt "."]
       threshold := "Variance within operational stability threshold." },
     { label := "Temporal/Relational Lock"
       category :=
         if |correlation| > 7 / 10 then "Operationally Critical"
         else "Weak Correlation"
       detail :=
         [.txt yLabel, .txt " shows a ", .num (roundTo 2 |correlation|),
          .txt " correlation strength with ", .txt xLabel, .txt "."]
       threshold :=
         "Correlation > 0.7 indicates direct operational dependency." }]
  let advisory : List (AdvisoryEntry α) :=
    (if concentration > 40 then
      [{ action := "DIVERSIFY"
         metric := "Concentration"
         context :=
           [.txt "Reduce dependency on dominant nodes ([",
            .txt dominantContributor, .txt "]). High concentration (",
            .num (roundTo 1 concentration),
            .txt
              "%) creates single-point failure risks. Actions should focus on redistributing volume to secondary nodes."] }]
     else []) ++
    (if |shifts.volShift| > 15 then
      [{ action := "MONITOR"
         metric := "Volatility"
         context :=
           [.txt "Significant volume shift detected (", .num shifts.volShift,
            .txt
              "%). Validate input integrity and peak stability. Distribution change exceeds the 15% threshold for standard operations."] }]
     else []) ++
    (if stats.stdDev / jsOrOne stats.mean > 6 / 5 then
      [{ action := "REDUCE"
         metric := "Dispersion"
         context :=
           [.txt
              "High data variance detected. Streamline operational nodes to improve flow consistency. Targeted stabilization of high-variance segments is recommended."] }]
     else [])
  let advisory :=
    if advisory.length = 0 then
      [{ action := "MAINTAIN"
         metric := "Baseline"
         context :=
           [.txt
              "System operating within balanced parameters. Continue standard monitoring protocol as variance and concentration remain within optimal thresholds."] }]
    else advisory
  ⟨biInterpretation, impactMatrix, advisory⟩

/-- The `label.replace(/[_-]/g, ' ')`. -/
def replaceUnderscoreDash (s : String) : String :=
  String.mk (s.toList.map fun c => if c == '_' || c == '-' then ' ' else c)

/-- The `replace(/([a-z])([A-Z])/g, '$1 $2')`: insert a space at every
lowercase-to-uppercase boundary. -/
def camelSplit : List Char → List Char
  | [] => []
  | [c] => [c]
  | c1 :: c2 :: rest =>
      if c1.isLower && c2.isUpper then c1 :: ' ' :: camelSplit (c2 :: rest)
      else c1 :: camelSplit (c2 :: rest)

/-- The `replace(/Id$|Key$|Dataset$|Value$/i, '')`: strip one such suffix,
case-insensitively; the leftmost regex match is the longest of the
alternatives that matches at the end. -/
def stripLabelSuffix (s : String) : String :=
  let ls := s.toLower
  if ls.endsWith "dataset" then s.dropRight 7
  else if ls.endsWith "value" then s.dropRight 5
  else if ls.endsWith "key" then s.dropRight 3
  else if ls.endsWith "id" then s.dropRight 2
  else s

/-- The `w.charAt(0).toUpperCase() + w.slice(1).toLowerCase()`. -/
def capWord (w : String) : String :=
  match w.toList with
  | [] => ""
  | c :: rest => String.mk (c.toUpper :: rest.map Char.toLower)

/-- Embedding of `reasoning.engine.js` `cleanLabel`. -/
def cleanLabel (label : String) : String :=
  if label = "" then "N/A"
  else
    let cleaned := String.mk (camelSplit (replaceUnderscoreDash label).toList)
    let cleaned := jsTrim (stripLabelSuffix cleaned)
    String.intercalate " " ((cleaned.splitOn " ").map capWord)

/-- Digit characters `0-9a-z` used by `Number.prototype.toString(36)` (and,
below base 16, by JSON `\u` escapes). -/
def digitChar36 (n : ℕ) : Char :=
  if n < 10 then Char.ofNat (48 + n) else Char.ofNat (87 + n)

/-- Base-36 digits of `n`, most significant first (fuel-structured so that it
reduces definitionally; `fuel ≥ n` suffices). -/
def natToBase36Go : ℕ → ℕ → List Char → List Char
  | 0, _, acc => acc
  | fuel + 1, n, acc =>
      if n = 0 then acc
      else natToBase36Go fuel (n / 36) (digitChar36 (n % 36) :: acc)

/-- The `Number.prototype.toString(36)` for an integer. -/
def intToBase36 (i : ℤ) : String :=
  if i < 0 then "-" ++ String.mk (natToBase36Go (i.natAbs + 1) i.natAbs [])
  else if i = 0 then "0"
  else String.mk (natToBase36Go (i.toNat + 1) i.toNat [])

/-- JSON string-character escaping as `JSON.stringify` performs it. -/
def jsonEscapeChar (c : Char) : List Char :=
  if c == '"' then ['\\', '"']
  else if c == '\\' then ['\\', '\\']
  else if c == '\n' then ['\\', 'n']
  else if c == '\r' then ['\\', 'r']
  else if c == '\t' then ['\\', 't']
  else if c == Char.ofNat 8 then ['\\', 'b']
  else if c == Char.ofNat 12 then ['\\', 'f']
  else if c.toNat < 32 then
    ['\\', 'u', '0', '0', digitChar36 (c.toNat / 16), digitChar36 (c.toNat % 16)]
  else [c]

/-- A JSON string literal. -/
def jsonString (s : String) : List Char :=
  '"' :: s.toList.flatMap jsonEscapeChar ++ ['"']

/-- The `JSON.stringify` of one row object (keys in insertion order). -/
def jsonRow (r : Row) : List Char :=
  [Char.ofNat 123] ++
    (List.intercalate [','] (r.map fun p => jsonString p.1 ++ ':' :: jsonString p.2)) ++
    [Char.ofNat 125]

/-- The `JSON.stringify` of the row array. -/
def jsonStringify (data : List Row) : String :=
  String.mk ('[' :: List.intercalate [','] (data.map jsonRow) ++ [']'])

/-- Wrap an integer to a 32-bit signed value (`| 0`, and the implicit
`ToInt32` of `<< 5`). -/
def toInt32 (n : ℤ) : ℤ := (n + 2 ^ 31) % 2 ^ 32 - 2 ^ 31

/-- One step of the rolling hash: `hash = ((hash << 5) - hash) + code; hash |= 0`. -/
def hashStep (h : ℤ) (code : ℕ) : ℤ := toInt32 (toInt32 (h * 32) - h + code)

/-- Embedding of `reasoning.engine.js` `generateHash`: 32-bit rolling hash of the JSON
serialization, rendered in base 36.  `charCodeAt` agrees with the Unicode
scalar value on the Basic Multilingual Plane, which is what the model uses. -/
def generateHash (data : List Row) : String :=
  intToBase36 ((jsonStringify data).toList.foldl (fun h c => hashStep h c.toNat) 0)

/-- The `labels` field of an analysis result. -/
structure Labels where
  x : String
  y : String
  deriving Repr, DecidableEq

/-- The `metrics` field of an analysis result (`correlation` is real-valued,
everything else is data-derived and exact). -/
structure Metrics (α : Type) where
  totalVolume : ℚ
  averageIntensity : ℚ
  peakMagnitude : ℚ
  nodeCount : ℕ
  volShift : ℚ
  peakShift : ℚ
  correlation : α

/-- The `peaks` field (`intensity` is `(max/(mean||1)).toFixed(2)`, the
`"x"` display suffix abstracted away). -/
structure PeaksInfo where
  point : String
  value : ℚ
  intensity : ℚ
  deriving Repr, DecidableEq

/-- The `ranges` field: the operational span and the `mean ± stdDev`
stability band (rounded to two decimals as in the source template). -/
structure Ranges (α : Type) where
  operationalLo : ℚ
  operationalHi : ℚ
  stabilityLo : α
  stabilityHi : α

/-- One `dominantDrivers` entry (`concentration` is `(v/sum·100).toFixed(1)`,
the `"%"` display suffix abstracted away). -/
structure Driver where
  name : String
  value : ℚ
  concentrationPct : ℚ
  deriving Repr, DecidableEq

/-- One `reportSections` entry. -/
structure ReportSection (α : Type) where
  title : String
  content : List (Piece α)
  deriving DecidableEq

/-- The analysis result assembled by `runAuditLogic`.  The source result
carries both `statistics` and `mainStats` (two references to the same
record); both fields are kept. -/
structure AuditResult where
  version : String
  timestamp : String
  trackId : String
  hash : String
  labels : Labels
  statisticsModel : List (String × FullStats)
  mainStats : FullStats
  metrics : Metrics ℝ
  statistics : FullStats
  interpretation : BiInterp
  biInterpretation : BiInterp
  impactMatrix : List (ImpactEntry ℝ)
  advisory : List (AdvisoryEntry ℝ)
  peaks : PeaksInfo
  ranges : Ranges ℝ
  dominantDrivers : List Driver
  distributions : List (String × ℚ)
  isDelta : Bool
  reportSections : List (ReportSection ℝ)

/-- The body of `runAuditLogic` past the delta/statistics preamble: assembles
the result record from the validated main statistics and the computed
shifts.  Kept separate so that varying only `trackId`/`timestamp`/`isDelta`
is visibly confined to those fields. -/
noncomputable def buildAuditResult (x y : String) (masterData : List Row)
    (currentHash : String) (statisticsModel : List (String × FullStats))
    (ms : FullStats) (shifts : Shifts ℚ) (trackId timestamp : String)
    (isDelta : Bool) : AuditResult :=
  let correlation := computeCorrelation masterData x y
  let categorical := getCategoricalStats masterData x y
  let xLab := cleanLabel x
  let yLab := cleanLabel y
  let dominantContributor := match categorical.head? with
    | some e => e.1
    | none => "N/A"
  let stdDev : ℝ := Real.sqrt (ms.variance : ℝ)
  let brain :=
    biAnalystBrain (α := ℝ) ⟨(ms.mean : ℝ), stdDev, (ms.variance : ℝ), (ms.max : ℝ), (ms.sum : ℝ)⟩
      ⟨(shifts.volShift : ℝ), (shifts.peakShift : ℝ)⟩ correlation xLab yLab
      dominantContributor
  let concentration : ℚ := ms.max / jsOrOne ms.sum * 100
  let execSummary : List (Piece ℝ) :=
    [.txt "Dataset identifies a ", .txt brain.biInterpretation.operationalState,
     .txt " state across ", .num ((ms.count : ℚ) : ℝ),
     .txt " nodes. Main contributor [", .txt dominantContributor,
     .txt "] accounts for ", .num ((roundTo 1 concentration : ℚ) : ℝ),
     .txt "% of total volume. Operational variance is ",
     .txt (if stdDev > (ms.mean : ℝ) then "high" else "stable"),
     .txt ", indicating a ",
     .txt brain.biInterpretation.efficiencyObservation.toLower,
     .txt " baseline."]
  { version := "v22.0"
    timestamp := timestamp
    trackId := trackId
    hash := currentHash
    labels := ⟨xLab, yLab⟩
    statisticsModel := statisticsModel
    mainStats := ms
    metrics :=
      { totalVolume := ms.sum
        averageIntensity := ms.mean
        peakMagnitude := ms.max
        nodeCount := ms.count
        volShift := shifts.volShift
        peakShift := shifts.peakShift
        correlation := correlation }
    statistics := ms
    interpretation := brain.biInterpretation
    biInterpretation := brain.biInterpretation
    impactMatrix := brain.impactMatrix
    advisory := brain.advisory
    peaks :=
      { point := dominantContributor
        value := ms.max
        intensity := roundTo 2 (ms.max / jsOrOne ms.mean) }
    ranges :=
      { operationalLo := ms.min
        operationalHi := ms.max
        stabilityLo := roundTo 2 ((ms.mean : ℝ) - stdDev)
        stabilityHi := roundTo 2 ((ms.mean : ℝ) + stdDev) }
    dominantDrivers :=
      (categorical.take 5).map fun e =>
        { name := e.1, value := e.2, concentrationPct := roundTo 1 (e.2 / ms.sum * 100) }
    distributions := categorical
    isDelta := isDelta
    reportSections :=
      [⟨"Executive Summary", execSummary⟩,
       ⟨"Relational Analysis",
        [.txt "A ",
         .txt (if |correlation| > 7 / 10 then "strong"
               else if |correlation| > 2 / 5 then "moderate" else "weak"),
         .txt " correlation (", .num (roundTo 2 correlation),
         .txt ") exists between ", .txt xLab, .txt " and ", .txt yLab,
         .txt "."]⟩] }

/-- The `statisticsModel` block of `runAuditLogic`: one statistics record
per key of the first row.  The source filter
`!isNaN(parseVal(firstRow[k])) && typeof firstRow[k] !== 'boolean'` keeps
every key on string-valued rows (`parseVal` never yields `NaN` there), so
the numeric-field list is the full header list of the first row. -/
def auditStatisticsModel (masterData : List Row) :
    List (String × FullStats) :=
  ((masterData.head?.getD []).map (·.1)).filterMap fun f =>
    (computeFullStats masterData f).map fun s => (f, s)

/-- The `mainStats` selection of `runAuditLogic`:
`statisticsModel[y] || computeFullStats(masterData, y)`. -/
def auditMainStats (masterData : List Row) (y : String) : Option FullStats :=
  match ((auditStatisticsModel masterData).find? (fun p => p.1 == y)).map (·.2) with
  | some s => some s
  | none => computeFullStats masterData y

/-- The `shifts` block of `runAuditLogic`: zero without history, else the
percentage change against the most recent prior result's metrics, rounded
to one decimal (`toFixed(1)` re-parsed with `parseFloat`). -/
def auditShifts (ms : FullStats) (history : List AuditResult) : Shifts ℚ :=
  match history.head? with
  | none => ⟨0, 0⟩
  | some prev =>
      ⟨roundTo 1 ((ms.sum - prev.metrics.totalVolume) /
          jsOrOne prev.metrics.totalVolume * 100),
       roundTo 1 ((ms.max - prev.metrics.peakMagnitude) /
          jsOrOne prev.metrics.peakMagnitude * 100)⟩

/-- Embedding of `reasoning.engine.js` `runAuditLogic`.  `trackId`/`timestamp` are oracle
inputs standing for `Math.random()`/`new Date()`.  `none` models the
`TypeError` the source throws when `mainStats` is `null` (no coercible
column values); `isDelta` is `currentHash !== lastHash`. -/
noncomputable def runAuditLogic (x y : String) (masterData : List Row)
    (history : List AuditResult) (lastHash : Option String)
    (trackId timestamp : String) : Option AuditResult :=
  match auditMainStats masterData y with
  | none => none
  | some ms =>
      some (buildAuditResult x y masterData (generateHash masterData)
        (auditStatisticsModel masterData) ms (auditShifts ms history)
        trackId timestamp (decide (lastHash ≠ some (generateHash masterData))))

/-- The orchestrator state `finishAnalysis` mutates: the last analysis hash
and the in-memory audit history. -/
structure Session where
  lastHash : Option String
  history : List AuditResult

/-- One orchestrated audit: `executeAnalysis` (which hands `runAuditLogic`
the five most recent history entries and the last hash) followed by
`finishAnalysis` (record the hash; prepend to history unless the head
already carries this timestamp). -/
noncomputable def runAudit (s : Session) (x y : String)
    (masterData : List Row) (trackId timestamp : String) :
    Option (AuditResult × Session) :=
  match runAuditLogic x y masterData (s.history.take 5) s.lastHash trackId
      timestamp with
  | none => none
  | some r =>
      let newHistory :=
        match s.history with
        | [] => r :: s.history
        | h :: _ => if h.timestamp ≠ r.timestamp then r :: s.history else s.history
      some (r, ⟨some r.hash, newHistory⟩)

/-- The chart snapshots the rendering layer exposes to the export flow. -/
structure Snapshots where
  reportChart : Option String
  deriving Repr, DecidableEq

/-- The shape of `window.lastAnalysisResults` as `exportReport` and
`validateReportCompleteness` read it: every consulted field is accessed
through a truthiness or optional-chaining guard in the source, so each is
optional here. -/
structure StoredResult (α : Type) where
  reportSections : Option (List (ReportSection α))
  statisticsModel : Option (List (String × FullStats))
  peaks : Option PeaksInfo
  advisory : Option (List (AdvisoryEntry α))
  impactMatrix : List (ImpactEntry α)
  deriving DecidableEq

/-- App-core `validateReportCompleteness`: the five truthiness checks
(`reportSections?.[0]`, `statisticsModel`, `snapshots.reportChart`, `peaks`,
`advisory?.length > 0`), all required. -/
def validateReportCompleteness {α : Type} (results : StoredResult α)
    (snapshots : Snapshots) : Bool :=
  let summary := match results.reportSections with
    | some (_ :: _) => true
    | _ => false
  let stats := results.statisticsModel.isSome
  let graph := snapshots.reportChart.isSome
  let peaks := results.peaks.isSome
  let advisory := decide (0 < ((results.advisory.getD []).length))
  summary && stats && graph && peaks && advisory

/-- The observable outcome of `exportReport`: silently do nothing (no last
result), block with a user-visible alert plus an activity-log line, or
produce the printable report document. -/
inductive ExportOutcome (α : Type) where
  | noResult
  | blocked (alertMsg : String) (logMsg : String)
  | document (results : StoredResult α) (chart : Option String)
  deriving DecidableEq

/-- Whether the export produced a document. -/
def ExportOutcome.isDocument {α : Type} : ExportOutcome α → Bool
  | .document _ _ => true
  | _ => false

/-- App-core `exportReport`: return silently without a result; alert and log
when completeness validation fails; otherwise emit the report document
embedding the result and the chart snapshot. -/
def exportReport {α : Type} (lastAnalysisResults : Option (StoredResult α))
    (snapshots : Snapshots) : ExportOutcome α :=
  match lastAnalysisResults with
  | none => .noResult
  | some results =>
      if validateReportCompleteness results snapshots then
        .document results snapshots.reportChart
      else
        .blocked
          "REPORT STATUS: INCOMPLETE — EXPORT BLOCKED. Please wait for graph rendering to complete."
          "Export Blocked: Incomplete Intelligence Artifact."

/-- One stored dataset of `data.engine.js` (the fields `prepareMasterData`
and its callers touch). -/
structure Dataset where
  id : String
  name : String
  data : List Row
  headers : List String
  hash : String
  deriving Repr, DecidableEq

/-- Embedding of `data.engine.js` `prepareMasterData`: on an empty collection reset the
working row set; otherwise recompute it for the three known modes and leave
it untouched for any other mode.  The collection is the insertion-ordered
dataset map, `masterData` the current working row set. -/
def prepareMasterData (datasetCollection : List (String × Dataset))
    (mode : String) (masterData : List Row) : List Row :=
  match datasetCollection with
  | [] => []
  | c :: cs =>
      let lastData := ((c :: cs).getLast (List.cons_ne_nil c cs)).2.data
      if mode = "single" then lastData
      else if mode = "union" then ((c :: cs).map (·.2.data)).flatten
      else if mode = "compare" then lastData
      else masterData

/-! Claim C10 — `prepareMasterData` frame behaviour -/

/-- C10: with a non-empty dataset collection, invoking the working-row-set
preparation with any mode other than `single`, `union` or `compare` leaves
the working row set (`masterData`) unchanged — neither recomputed nor
cleared; it is reset to the empty sequence exactly in the empty-collection
branch. -/
theorem prepareMasterData_frame (coll : List (String × Dataset))
    (mode : String) (cur : List Row) :
    (coll ≠ [] → mode ∉ (["single", "union", "compare"] : List String) →
      prepareMasterData coll mode cur = cur) ∧
    prepareMasterData [] mode cur = [] := by
  constructor
  · intro hne hmode
    have h1 : mode ≠ "single" := fun h => hmode (by simp [h])
    have h2 : mode ≠ "union" := fun h => hmode (by simp [h])
    have h3 : mode ≠ "compare" := fun h => hmode (by simp [h])
    match coll with
    | [] => exact absurd rfl hne
    | c :: cs => simp [prepareMasterData, h1, h2, h3]
  · rfl

/-- Witness for C10 at a concrete collection, unknown mode and prior
working row set. -/
theorem prepareMasterData_frame_witness :
    prepareMasterData
      [("ds_a", ⟨"ds_a", "a.csv", [[("k", "1")]], ["k"], "h0"⟩)]
      "mystery" [[("k", "9")]] = [[("k", "9")]] :=
  (prepareMasterData_frame _ _ _).1 (by simp) (by decide)

/-! Claim C2 — export completeness gating -/

/-- A stored result whose export-relevant fields are all present except that
its impact matrix is empty: the completeness validator never consults the
impact matrix, so export still produces a document. -/
def cexStored : StoredResult ℚ :=
  { reportSections := some [⟨"Executive Summary", [.txt "summary"]⟩]
    statisticsModel := some []
    peaks := some ⟨"East", 1, 1⟩
    advisory := some [⟨"MAINTAIN", "Baseline", [.txt "steady"]⟩]
    impactMatrix := [] }

/-- A snapshot set with the chart image present. -/
def cexSnapshots : Snapshots := ⟨some "img"⟩

/-- C2 counterexample: the claim requires at least one impact-matrix entry
for export to proceed, but the code's completeness predicate checks the
`peaks` record instead — on this input the impact matrix is empty yet the
export produces a document. -/
theorem exportReport_impactMatrix_counterexample :
    cexStored.impactMatrix = [] ∧
    (exportReport (some cexStored) cexSnapshots).isDocument = true := by
  decide

/-- C2 (amended): export produces a document iff the completeness predicate
holds, where the predicate requires a narrative section, a statistics model,
a chart snapshot, a `peaks` record (not an impact-matrix entry), and a
non-empty advisory list; a failing predicate yields the user-visible
blocked outcome (alert plus activity-log entry), and a missing result
yields silence — never a crash. -/
theorem exportReport_blockedIffComplete {α : Type} (r : StoredResult α)
    (snap : Snapshots) :
    ((exportReport (some r) snap).isDocument = true ↔
      ((∃ s rest, r.reportSections = some (s :: rest)) ∧
        r.statisticsModel.isSome = true ∧ snap.reportChart.isSome = true ∧
        r.peaks.isSome = true ∧ 0 < (r.advisory.getD []).length)) ∧
    (validateReportCompleteness r snap = false →
      exportReport (some r) snap =
        .blocked
          "REPORT STATUS: INCOMPLETE — EXPORT BLOCKED. Please wait for graph rendering to complete."
          "Export Blocked: Incomplete Intelligence Artifact.") ∧
    exportReport (none : Option (StoredResult α)) snap = .noResult := by
  refine ⟨?_, ?_, rfl⟩
  · rw [exportReport]
    by_cases hv : validateReportCompleteness r snap
    · rw [if_pos hv]
      simp only [ExportOutcome.isDocument, true_iff]
      rw [validateReportCompleteness] at hv
      simp only [Bool.and_eq_true, decide_eq_true_eq] at hv
      obtain ⟨⟨⟨⟨hsum, hstats⟩, hgraph⟩, hpeaks⟩, hadv⟩ := hv
      refine ⟨?_, hstats, hgraph, hpeaks, hadv⟩
      revert hsum
      match r.reportSections with
      | none => simp
      | some [] => simp
      | some (s :: rest) => exact fun _ => ⟨s, rest, rfl⟩
    · rw [if_neg hv]
      simp only [ExportOutcome.isDocument, Bool.false_eq_true, false_iff]
      rintro ⟨⟨s, rest, hsec⟩, hstats, hgraph, hpeaks, hadv⟩
      apply hv
      rw [validateReportCompleteness, hsec]
      simp [hstats, hgraph, hpeaks, hadv]
  · intro hv
    rw [exportReport, if_neg (by simp [hv])]

/-- Witness for C2 at a concrete complete result and chart snapshot: the
export produces a document. -/
theorem exportReport_blockedIffComplete_witness :
    (exportReport
        (some
          ({ reportSections := some [⟨"Executive Summary", [.txt "s"]⟩]
             statisticsModel := some []
             peaks := some ⟨"East", 2, 1⟩
             advisory := some [⟨"MAINTAIN", "Baseline", []⟩]
             impactMatrix := [] } : StoredResult ℚ))
        ⟨some "chart"⟩).isDocument = true :=
  (exportReport_blockedIffComplete _ _).1.mpr
    ⟨⟨_, _, rfl⟩, rfl, rfl, rfl, by decide⟩

/-! Claim C5 — coercion behaviour and the `null` condition of
`computeFullStats` -/

/-- The coerced column values are one per row. -/
theorem numsOf_length (data : List Row) (field : String) :
    (numsOf data field).length = data.length := by
  simp [numsOf]

/-- The `computeFullStats` returns `none` exactly on an empty row list: in the
string-valued row model every cell coerces (to `0` at worst), so "zero
coercible values" means "no rows". -/
theorem computeFullStats_eq_none_iff (data : List Row) (field : String) :
    computeFullStats data field = none ↔ data = [] := by
  rw [computeFullStats]
  rcases data with _ | ⟨d, rest⟩
  · simp [numsOf]
  · simp [numsOf]

/-- The `sum` and `count` fields of a `computeFullStats` record are the sum
and length of the coerced column. -/
theorem computeFullStats_sum_count (data : List Row) (field : String)
    (stats : FullStats) (h : computeFullStats data field = some stats) :
    stats.sum = (numsOf data field).sum ∧
      stats.count = (numsOf data field).length := by
  rw [computeFullStats] at h
  split at h
  · exact absurd h (by simp)
  · obtain rfl := Option.some.inj h
    exact ⟨rfl, rfl⟩

/-- C5: `computeFullStats` returns `null` exactly when the column has zero
coercible values (no rows, in the string-valued row model where every value
coerces); a value whose stripped string fails to parse (`parseFloat` gives
`NaN`) coerces to `0`, so appending a row with such a cell increases `count`
by one without changing `sum`. -/
theorem computeFullStats_coercion (data : List Row) (field : String) :
    (computeFullStats data field = none ↔ data = []) ∧
    (∀ d : Row,
      parseFloatQ (stripNonNumeric (jsOrEmpty (lookupField d field))) = none →
      parseVal (lookupField d field) = 0) ∧
    (∀ (d : Row) (stats stats' : FullStats),
      parseFloatQ (stripNonNumeric (jsOrEmpty (lookupField d field))) = none →
      computeFullStats data field = some stats →
      computeFullStats (data ++ [d]) field = some stats' →
      stats'.count = stats.count + 1 ∧ stats'.sum = stats.sum) := by
  refine ⟨computeFullStats_eq_none_iff data field, ?_, ?_⟩
  · intro d hfail
    rw [parseVal, hfail]
    rfl
  · intro d stats stats' hfail h h'
    have hzero : parseVal (lookupField d field) = 0 := by
      rw [parseVal, hfail]; rfl
    have hni : numsOf (data ++ [d]) field = numsOf data field ++ [0] := by
      rw [numsOf, numsOf, List.map_append]
      simp [hzero]
    obtain ⟨hs, hc⟩ := computeFullStats_sum_count data field stats h
    obtain ⟨hs', hc'⟩ := computeFullStats_sum_count (data ++ [d]) field stats' h'
    rw [hc', hc, hni, hs', hs, hni]
    simp

/-- Witness for C5: on a one-row list whose cell is the non-numeric string
`"abc"`, appending a second such row keeps the sum at `0` while the count
becomes `2`. -/
theorem computeFullStats_coercion_witness :
    parseFloatQ (stripNonNumeric (jsOrEmpty (lookupField [("v", "abc")] "v"))) = none ∧
    (⟨0, 0, 0, 0, 0, 0, 0, 0, 0, 2⟩ : FullStats).count =
      (⟨0, 0, 0, 0, 0, 0, 0, 0, 0, 1⟩ : FullStats).count + 1 ∧
    (⟨0, 0, 0, 0, 0, 0, 0, 0, 0, 2⟩ : FullStats).sum =
      (⟨0, 0, 0, 0, 0, 0, 0, 0, 0, 1⟩ : FullStats).sum :=
  ⟨by decide,
    (computeFullStats_coercion [[("v", "abc")]] "v").2.2 [("v", "abc")]
      ⟨0, 0, 0, 0, 0, 0, 0, 0, 0, 1⟩ ⟨0, 0, 0, 0, 0, 0, 0, 0, 0, 2⟩
      (by decide)
      (by simp +decide [computeFullStats, numsOf, parseVal, parseFloatQ,
        stripNonNumeric, jsOrEmpty, lookupField, digitsToNat, fracToRat,
        List.insertionSort, List.orderedInsert])
      (by simp +decide [computeFullStats, numsOf, parseVal, parseFloatQ,
        stripNonNumeric, jsOrEmpty, lookupField, digitsToNat, fracToRat,
        List.insertionSort, List.orderedInsert])⟩

/-! Claim C3 — advisory accumulation rules -/

/-- C3: the advisory list is built by three independent, non-mutually-
exclusive rules in fixed order — concentration > 40 appends `DIVERSIFY`,
`|volShift| > 15` appends `MONITOR`, `stdDev/mean > 1.2` (with the source's
`mean || 1` zero-denominator guard) appends `REDUCE` — with the single
fallback `MAINTAIN` exactly when none fired; hence the list is never empty
and `MAINTAIN` only ever appears alone. -/
theorem biAnalystBrain_advisory {α : Type} [LinearOrderedField α]
    [FloorRing α] (stats : BrainStats α) (shifts : Shifts α) (corr : α)
    (xL yL dom : String) :
    ((biAnalystBrain stats shifts corr xL yL dom).advisory.map (·.action) =
      (if stats.max / jsOrOne stats.sum * 100 > 40 then ["DIVERSIFY"] else []) ++
      (if |shifts.volShift| > 15 then ["MONITOR"] else []) ++
      (if stats.stdDev / jsOrOne stats.mean > 6 / 5 then ["REDUCE"] else []) ++
      (if ¬stats.max / jsOrOne stats.sum * 100 > 40 ∧ ¬|shifts.volShift| > 15 ∧
          ¬stats.stdDev / jsOrOne stats.mean > 6 / 5 then ["MAINTAIN"] else [])) ∧
    (biAnalystBrain stats shifts corr xL yL dom).advisory ≠ [] ∧
    ("MAINTAIN" ∈ (biAnalystBrain stats shifts corr xL yL dom).advisory.map (·.action) ↔
      ¬stats.max / jsOrOne stats.sum * 100 > 40 ∧ ¬|shifts.volShift| > 15 ∧
        ¬stats.stdDev / jsOrOne stats.mean > 6 / 5) ∧
    ("MAINTAIN" ∈ (biAnalystBrain stats shifts corr xL yL dom).advisory.map (·.action) →
      (biAnalystBrain stats shifts corr xL yL dom).advisory.map (·.action) =
        ["MAINTAIN"]) := by
  by_cases h1 : stats.max / jsOrOne stats.sum * 100 > 40 <;>
    by_cases h2 : |shifts.volShift| > 15 <;>
    by_cases h3 : stats.stdDev / jsOrOne stats.mean > 6 / 5 <;>
    simp [biAnalystBrain, h1, h2, h3]

/-- Witness for C3: a record on which all three rules fire, in order. -/
theorem biAnalystBrain_advisory_witness :
    ((biAnalystBrain (α := ℚ) ⟨10, 13, 169, 500, 1000⟩ ⟨20, 0⟩ 0 "X" "Y" "E").advisory.map
        (·.action)) = ["DIVERSIFY", "MONITOR", "REDUCE"] := by
  rw [(biAnalystBrain_advisory (α := ℚ) ⟨10, 13, 169, 500, 1000⟩ ⟨20, 0⟩ 0 "X" "Y" "E").1]
  norm_num [jsOrOne]

/-! Claim C4 — interpretation threshold labels -/

/-- A statistics record with `mean = 0` and `stdDev = 0`. -/
def cexBrainStats : BrainStats ℚ := ⟨0, 0, 0, 1, 10⟩

/-- C4 counterexample: on `cexBrainStats` the claim's guarded ratio
`stdDev / (mean = 0 ? 1 : mean) = 0/1` is below `0.5`, so the claim
classifies the efficiency observation as the precise variant; the code
instead requires `mean > 0` and classifies it as dispersed. -/
theorem biAnalystBrain_efficiency_counterexample :
    cexBrainStats.stdDev / jsOrOne cexBrainStats.mean < 1 / 2 ∧
    (biAnalystBrain cexBrainStats ⟨0, 0⟩ 0 "X" "Y" "E").biInterpretation.efficiencyObservation =
      "Dispersed Intensity" := by
  constructor
  · norm_num [jsOrOne, cexBrainStats]
  · rfl

/-- C4 (amended): with concentration `100·max/sum` (denominator 1 when
`sum = 0`), `operationalState` is the highly-concentrated variant iff
concentration > 50, `concentrationRisk` is the critical-dependency variant
iff concentration > 40, `stabilityAssessment` is steady iff
`|volShift| < 10`, and `efficiencyObservation` is the precise variant iff
`mean > 0` and `stdDev/mean < 0.5` (not the claimed mean-0 denominator
guard). -/
theorem biAnalystBrain_interpretation {α : Type} [LinearOrderedField α]
    [FloorRing α] (stats : BrainStats α) (shifts : Shifts α) (corr : α)
    (xL yL dom : String) :
    ((biAnalystBrain stats shifts corr xL yL dom).biInterpretation.operationalState =
        "Highly Concentrated (Siloed)" ↔
      stats.max / jsOrOne stats.sum * 100 > 50) ∧
    ((biAnalystBrain stats shifts corr xL yL dom).biInterpretation.operationalState =
        "Balanced (Distributed)" ↔
      ¬stats.max / jsOrOne stats.sum * 100 > 50) ∧
    ((biAnalystBrain stats shifts corr xL yL dom).biInterpretation.concentrationRisk =
        "Critical Alpha Dependency" ↔
      stats.max / jsOrOne stats.sum * 100 > 40) ∧
    ((biAnalystBrain stats shifts corr xL yL dom).biInterpretation.concentrationRisk =
        "Stable Diversification" ↔
      ¬stats.max / jsOrOne stats.sum * 100 > 40) ∧
    ((biAnalystBrain stats shifts corr xL yL dom).biInterpretation.stabilityAssessment =
        "Steady-State Operational" ↔ |shifts.volShift| < 10) ∧
    ((biAnalystBrain stats shifts corr xL yL dom).biInterpretation.stabilityAssessment =
        "Volatile Flow Change" ↔ ¬|shifts.volShift| < 10) ∧
    ((biAnalystBrain stats shifts corr xL yL dom).biInterpretation.efficiencyObservation =
        "High Precision Flow" ↔
      (stats.mean > 0 ∧ stats.stdDev / stats.mean < 1 / 2)) ∧
    ((biAnalystBrain stats shifts corr xL yL dom).biInterpretation.efficiencyObservation =
        "Dispersed Intensity" ↔
      ¬(stats.mean > 0 ∧ stats.stdDev / stats.mean < 1 / 2)) := by
  by_cases h1 : stats.max / jsOrOne stats.sum * 100 > 50 <;>
    by_cases h2 : stats.max / jsOrOne stats.sum * 100 > 40 <;>
    by_cases h3 : |shifts.volShift| < 10 <;>
    by_cases h4 : stats.mean > 0 ∧ stats.stdDev / stats.mean < 1 / 2 <;>
    simp [biAnalystBrain, h1, h2, h3, h4]

/-- Witness for C4 at a concrete record: 50% concentration is not above the
50 threshold, so the state label is the balanced variant while the risk
label is the critical variant. -/
theorem biAnalystBrain_interpretation_witness :
    (biAnalystBrain (α := ℚ) ⟨100, 10, 100, 500, 1000⟩ ⟨0, 0⟩ 0 "X" "Y" "E").biInterpretation.operationalState =
        "Balanced (Distributed)" ∧
    (biAnalystBrain (α := ℚ) ⟨100, 10, 100, 500, 1000⟩ ⟨0, 0⟩ 0 "X" "Y" "E").biInterpretation.concentrationRisk =
        "Critical Alpha Dependency" :=
  ⟨(biAnalystBrain_interpretation _ _ _ _ _ _).2.1.mpr (by norm_num [jsOrOne]),
   (biAnalystBrain_interpretation _ _ _ _ _ _).2.2.1.mpr (by norm_num [jsOrOne])⟩

/-! Claim C9 — the three-entry impact matrix -/

/-- C9: the impact matrix has exactly 3 entries in fixed order — Dominance
(`High Impact` iff `max > mean·5`), Stability (`Critical Risk` iff
`|stdDev/mean| > 0.8`, with the source's `mean || 1` guard), Relational lock
(`Operationally Critical` iff `|correlation| > 0.7`) — each carrying its
trigger description and a detail template interpolating the live numbers. -/
theorem biAnalystBrain_impactMatrix {α : Type} [LinearOrderedField α]
    [FloorRing α] (stats : BrainStats α) (shifts : Shifts α) (corr : α)
    (xL yL dom : String) :
    (biAnalystBrain stats shifts corr xL yL dom).impactMatrix.length = 3 ∧
    (biAnalystBrain stats shifts corr xL yL dom).impactMatrix.map (·.label) =
      ["Alpha Node Leverage", "Distribution Stability", "Temporal/Relational Lock"] ∧
    (((biAnalystBrain stats shifts corr xL yL dom).impactMatrix[0]?).map (·.category) =
        some "High Impact" ↔ stats.max > stats.mean * 5) ∧
    (((biAnalystBrain stats shifts corr xL yL dom).impactMatrix[0]?).map (·.category) =
        some "Medium Impact" ↔ ¬stats.max > stats.mean * 5) ∧
    (((biAnalystBrain stats shifts corr xL yL dom).impactMatrix[1]?).map (·.category) =
        some "Critical Risk" ↔ |stats.stdDev / jsOrOne stats.mean| > 4 / 5) ∧
    (((biAnalystBrain stats shifts corr xL yL dom).impactMatrix[1]?).map (·.category) =
        some "Stable" ↔ ¬|stats.stdDev / jsOrOne stats.mean| > 4 / 5) ∧
    (((biAnalystBrain stats shifts corr xL yL dom).impactMatrix[2]?).map (·.category) =
        some "Operationally Critical" ↔ |corr| > 7 / 10) ∧
    (((biAnalystBrain stats shifts corr xL yL dom).impactMatrix[2]?).map (·.category) =
        some "Weak Correlation" ↔ ¬|corr| > 7 / 10) ∧
    ((biAnalystBrain stats shifts corr xL yL dom).impactMatrix[0]?).map (·.detail) =
      some [.txt "Dominant contributor [", .txt dom, .txt "] controls ",
        .num (roundTo 1 (stats.max / jsOrOne stats.sum * 100)),
        .txt "% of total volume."] ∧
    ((biAnalystBrain stats shifts corr xL yL dom).impactMatrix[1]?).map (·.detail) =
      some [.txt "Variance measured at ", .num (roundTo 1 stats.variance),
        .txt " with a StdDev of ", .num (roundTo 1 stats.stdDev), .txt "."] ∧
    ((biAnalystBrain stats shifts corr xL yL dom).impactMatrix[2]?).map (·.detail) =
      some [.txt yL, .txt " shows a ", .num (roundTo 2 |corr|),
        .txt " correlation strength with ", .txt xL, .txt "."] ∧
    (biAnalystBrain stats shifts corr xL yL dom).impactMatrix.map (·.threshold) =
      ["Concentration > 40% triggers dependency risk.",
       "Variance within operational stability threshold.",
       "Correlation > 0.7 indicates direct operational dependency."] := by
  by_cases h1 : stats.max > stats.mean * 5 <;>
    by_cases h2 : |stats.stdDev / jsOrOne stats.mean| > 4 / 5 <;>
    by_cases h3 : |corr| > 7 / 10 <;>
    simp [biAnalystBrain, h1, h2, h3]

/-- Witness for C9 at a concrete record: `max = 100 > 5·10 = mean·5` gives
the `High Impact` severity on the Dominance entry. -/
theorem biAnalystBrain_impactMatrix_witness :
    ((biAnalystBrain (α := ℚ) ⟨10, 1, 1, 100, 1000⟩ ⟨0, 0⟩ 0 "X" "Y" "E").impactMatrix[0]?).map
        (·.category) = some "High Impact" :=
  (biAnalystBrain_impactMatrix _ _ _ _ _ _).2.2.1.mpr (by norm_num)

/-! Claim C8 — order invariants of the statistics record -/

/-- In an ascending-sorted rational list, positions respect the order. -/
theorem sorted_getD_le_getD {l : List ℚ} (h : l.Sorted (· ≤ ·)) {i j : ℕ}
    (hij : i ≤ j) (hj : j < l.length) : l.getD i 0 ≤ l.getD j 0 := by
  have hi : i < l.length := lt_of_le_of_lt hij hj
  rw [List.getD_eq_getElem l 0 hi, List.getD_eq_getElem l 0 hj]
  rcases lt_or_eq_of_le hij with hlt | heq
  · have := List.pairwise_iff_get.mp h ⟨i, hi⟩ ⟨j, hj⟩ (by simpa using hlt)
    simpa using this
  · subst heq
    exact le_refl _

/-- C8: every statistics record `computeFullStats` returns satisfies
`min ≤ median ≤ max`, `range = max − min`, `stdDev ≥ 0`, and `count` equal to
the number of rows (every value in a string-valued column coerces, so the
claim's "every value coerces successfully" proviso is always met). -/
theorem computeFullStats_invariants (data : List Row) (field : String)
    (stats : FullStats) (h : computeFullStats data field = some stats) :
    stats.min ≤ stats.median ∧ stats.median ≤ stats.max ∧
    stats.range = stats.max - stats.min ∧ 0 ≤ stats.stdDev ∧
    stats.count = data.length := by
  rw [computeFullStats] at h
  split at h
  · exact absurd h (by simp)
  · next hne =>
    obtain rfl := Option.some.inj h
    have hpos : 0 < (numsOf data field).length := Nat.pos_of_ne_zero hne
    have hslen : ((numsOf data field).insertionSort (· ≤ ·)).length =
        (numsOf data field).length := List.length_insertionSort _ _
    have hsort : ((numsOf data field).insertionSort (· ≤ ·)).Sorted (· ≤ ·) :=
      List.sorted_insertionSort _ _
    set n := (numsOf data field).length with hn
    set sorted := (numsOf data field).insertionSort (· ≤ ·) with hsortedDef
    have hlast : n - 1 < sorted.length := by
      rw [hslen]; exact Nat.sub_lt hpos one_pos
    have hmid : n / 2 < sorted.length := by
      rw [hslen]; exact Nat.div_lt_self hpos one_lt_two
    have hmid1 : n / 2 - 1 < sorted.length :=
      lt_of_le_of_lt (Nat.sub_le _ _) hmid
    have hmidle : n / 2 ≤ n - 1 :=
      Nat.le_sub_one_of_lt (Nat.div_lt_self hpos one_lt_two)
    refine ⟨?_, ?_, rfl, Real.sqrt_nonneg _, by
      simpa using (numsOf_length data field)⟩
    · -- min ≤ median
      show sorted.getD 0 0 ≤ _
      by_cases hpar : n % 2 ≠ 0
      · simp only [if_pos hpar]
        exact sorted_getD_le_getD hsort (Nat.zero_le _) hmid
      · simp only [if_neg hpar]
        have h1 := sorted_getD_le_getD hsort (Nat.zero_le (n / 2 - 1)) hmid1
        have h2 := sorted_getD_le_getD hsort (Nat.zero_le (n / 2)) hmid
        linarith
    · -- median ≤ max
      show _ ≤ sorted.getD (n - 1) 0
      by_cases hpar : n % 2 ≠ 0
      · simp only [if_pos hpar]
        exact sorted_getD_le_getD hsort hmidle hlast
      · simp only [if_neg hpar]
        have h1 := sorted_getD_le_getD hsort
          (le_trans (Nat.sub_le (n / 2) 1) hmidle) hlast
        have h2 := sorted_getD_le_getD hsort hmidle hlast
        linarith

/-- Witness for C8 at the concrete column `[1, 3]`. -/
theorem computeFullStats_invariants_witness :
    (⟨2, 2, 1, 1, 3, 2, 3, 1, 4, 2⟩ : FullStats).min ≤
      (⟨2, 2, 1, 1, 3, 2, 3, 1, 4, 2⟩ : FullStats).median ∧
    (⟨2, 2, 1, 1, 3, 2, 3, 1, 4, 2⟩ : FullStats).median ≤
      (⟨2, 2, 1, 1, 3, 2, 3, 1, 4, 2⟩ : FullStats).max ∧
    (⟨2, 2, 1, 1, 3, 2, 3, 1, 4, 2⟩ : FullStats).range =
      (⟨2, 2, 1, 1, 3, 2, 3, 1, 4, 2⟩ : FullStats).max -
        (⟨2, 2, 1, 1, 3, 2, 3, 1, 4, 2⟩ : FullStats).min ∧
    0 ≤ (⟨2, 2, 1, 1, 3, 2, 3, 1, 4, 2⟩ : FullStats).stdDev ∧
    (⟨2, 2, 1, 1, 3, 2, 3, 1, 4, 2⟩ : FullStats).count =
      ([[("v", "1")], [("v", "3")]] : List Row).length :=
  computeFullStats_invariants [[("v", "1")], [("v", "3")]] "v"
    ⟨2, 2, 1, 1, 3, 2, 3, 1, 4, 2⟩
    (by simp +decide [computeFullStats, numsOf, parseVal, parseFloatQ,
      stripNonNumeric, jsOrEmpty, lookupField, digitsToNat, fracToRat,
      List.insertionSort, List.orderedInsert]; norm_num)

/-! Claim C6 — totality and zero guards of `computeCorrelation` -/

/-- A sum of squares over a list is nonnegative. -/
theorem sum_mul_self_nonneg (l : List ℚ) : 0 ≤ (l.map (fun v => v * v)).sum := by
  apply List.sum_nonneg
  intro q hq
  obtain ⟨v, _, rfl⟩ := List.mem_map.mp hq
  exact mul_self_nonneg v

/-- Cauchy–Schwarz with a vector of ones over a list:
`(Σv)² ≤ n · Σv²`. -/
theorem sq_sum_le_length_mul_sum_sq (l : List ℚ) :
    l.sum ^ 2 ≤ (l.length : ℚ) * (l.map (fun v => v * v)).sum := by
  induction l with
  | nil => simp
  | cons a t ih =>
      rcases eq_or_ne t [] with rfl | htne
      · simp only [List.sum_cons, List.map_cons, List.length_cons,
          List.sum_nil, List.map_nil, List.length_nil]
        push_cast
        nlinarith [sq_nonneg a]
      · have hQ := sum_mul_self_nonneg t
        have hP2 := sq_nonneg ((t.length : ℚ) * a - t.sum)
        have hP1 : 0 ≤ (t.length : ℚ) * (t.map (fun v => v * v)).sum - t.sum ^ 2 :=
          sub_nonneg.mpr ih
        have hn : (0 : ℚ) < (t.length : ℚ) :=
          Nat.cast_pos.mpr (List.length_pos.mpr htne)
        simp only [List.sum_cons, List.map_cons, List.length_cons]
        push_cast
        nlinarith [hP1, hP2, hn, hQ, mul_nonneg (le_of_lt hn) hP1]

/-- Expansion of a centered sum of squares:
`Σ(v−m)² = Σv² − 2·m·Σv + n·m²`. -/
theorem sum_sub_sq_expand (l : List ℚ) (m : ℚ) :
    (l.map (fun b => (b - m) ^ 2)).sum =
      (l.map (fun v => v * v)).sum - 2 * m * l.sum + (l.length : ℚ) * m ^ 2 := by
  induction l with
  | nil => simp
  | cons a t ih =>
      simp only [List.map_cons, List.sum_cons, List.length_cons, ih]
      push_cast
      ring

/-- The population variance of a column, as `computeFullStats` computes it,
equals `(n·Σv² − (Σv)²) / n²` — the per-column Pearson denominator factor
over `n²`. -/
theorem colVariance_eq_pearsonDx (data : List Row) (c : String)
    (h : data ≠ []) :
    colVariance data c = pearsonDx data c / ((data.length : ℚ)) ^ 2 := by
  have hn : (numsOf data c).length = data.length := numsOf_length data c
  have hne : ((data.length : ℚ)) ≠ 0 :=
    Nat.cast_ne_zero.mpr (fun h0 => h (List.length_eq_zero.mp h0))
  rw [colVariance, pearsonDx]
  simp only [hn]
  rw [sum_sub_sq_expand, hn]
  field_simp
  ring

/-- The per-column Pearson denominator factor is nonnegative. -/
theorem pearsonDx_nonneg (data : List Row) (c : String) :
    0 ≤ pearsonDx data c := by
  have h := sq_sum_le_length_mul_sum_sq (numsOf data c)
  rw [pearsonDx]
  nlinarith [h]

/-- C6: `computeCorrelation` is total and never divides by zero — it returns
exactly `0` for fewer than two rows and whenever either column's coerced
values have zero variance (which is exactly when the Pearson denominator is
zero); otherwise the denominator is provably nonzero and the result is the
standard sum-of-products Pearson coefficient. -/
theorem computeCorrelation_guards (data : List Row) (x y : String) :
    (data.length < 2 → computeCorrelation data x y = 0) ∧
    (2 ≤ data.length → colVariance data x = 0 ∨ colVariance data y = 0 →
      computeCorrelation data x y = 0) ∧
    (2 ≤ data.length → colVariance data x ≠ 0 → colVariance data y ≠ 0 →
      Real.sqrt (((pearsonDx data x * pearsonDx data y : ℚ) : ℝ)) ≠ 0 ∧
      computeCorrelation data x y =
        ((pearsonNum data x y : ℚ) : ℝ) /
          Real.sqrt (((pearsonDx data x * pearsonDx data y : ℚ) : ℝ))) := by
  refine ⟨?_, ?_, ?_⟩
  · intro h
    rw [computeCorrelation, if_pos h]
  · intro h2 hvar
    have hne : data ≠ [] := by
      intro he
      rw [he] at h2
      exact absurd h2 (by decide)
    have hlen : ¬data.length < 2 := not_lt.mpr h2
    have hprod : (pearsonDx data x * pearsonDx data y : ℚ) = 0 := by
      rcases hvar with hv | hv
      · have := colVariance_eq_pearsonDx data x hne
        rw [hv] at this
        have hx : pearsonDx data x = 0 := by
          rcases div_eq_zero_iff.mp this.symm with h0 | h0
          · exact h0
          · exact absurd h0 (by positivity)
        rw [hx, zero_mul]
      · have := colVariance_eq_pearsonDx data y hne
        rw [hv] at this
        have hy : pearsonDx data y = 0 := by
          rcases div_eq_zero_iff.mp this.symm with h0 | h0
          · exact h0
          · exact absurd h0 (by positivity)
        rw [hy, mul_zero]
    rw [computeCorrelation, if_neg hlen]
    simp [hprod]
  · intro h2 hvx hvy
    have hne : data ≠ [] := by
      intro he
      rw [he] at h2
      exact absurd h2 (by decide)
    have hlen : ¬data.length < 2 := not_lt.mpr h2
    have hxne : pearsonDx data x ≠ 0 := by
      intro h0
      exact hvx (by rw [colVariance_eq_pearsonDx data x hne, h0, zero_div])
    have hyne : pearsonDx data y ≠ 0 := by
      intro h0
      exact hvy (by rw [colVariance_eq_pearsonDx data y hne, h0, zero_div])
    have hxpos : 0 < pearsonDx data x :=
      lt_of_le_of_ne (pearsonDx_nonneg data x) (Ne.symm hxne)
    have hypos : 0 < pearsonDx data y :=
      lt_of_le_of_ne (pearsonDx_nonneg data y) (Ne.symm hyne)
    have hprod : (0 : ℝ) < ((pearsonDx data x * pearsonDx data y : ℚ) : ℝ) := by
      exact_mod_cast mul_pos hxpos hypos
    have hsq : Real.sqrt (((pearsonDx data x * pearsonDx data y : ℚ) : ℝ)) ≠ 0 :=
      ne_of_gt (Real.sqrt_pos.mpr hprod)
    refine ⟨hsq, ?_⟩
    rw [computeCorrelation, if_neg hlen, if_neg hsq]

/-- Witness for C6: a single-row list is below the two-row threshold, so the
correlation is exactly `0`. -/
theorem computeCorrelation_guards_witness :
    computeCorrelation [[("a", "1"), ("b", "2")]] "a" "b" = 0 :=
  (computeCorrelation_guards [[("a", "1"), ("b", "2")]] "a" "b").1 (by decide)

/-! Claim C1 — categorical aggregation -/

/-- The keys of a `freq` table, in insertion order. -/
def keysOf (acc : List (String × ℚ)) : List String := acc.map Prod.fst

/-- The `freq[k]` on the association-list model. -/
def lookupQ (acc : List (String × ℚ)) (k : String) : Option ℚ :=
  (acc.find? (fun p => p.1 == k)).map (·.2)

/-- Keys of a cons. -/
theorem keysOf_cons (k₀ : String) (v₀ : ℚ) (rest : List (String × ℚ)) :
    keysOf ((k₀, v₀) :: rest) = k₀ :: keysOf rest := rfl

/-- Lookup on a cons. -/
theorem lookupQ_cons (k₀ : String) (v₀ : ℚ) (rest : List (String × ℚ))
    (k' : String) :
    lookupQ ((k₀, v₀) :: rest) k' =
      if k₀ = k' then some v₀ else lookupQ rest k' := by
  by_cases h : k₀ = k'
  · subst h
    simp [lookupQ, List.find?_cons]
  · have hb : (k₀ == k') = false := beq_eq_false_iff_ne.mpr h
    simp [lookupQ, List.find?_cons, hb, h]

/-- The `insertAdd` on a head with the matching key. -/
theorem insertAdd_cons_eq (k : String) (v v₀ : ℚ) (rest : List (String × ℚ)) :
    insertAdd ((k, v₀) :: rest) k v = (k, v₀ + v) :: rest := by
  simp [insertAdd]

/-- The `insertAdd` on a head with a different key. -/
theorem insertAdd_cons_ne (k₀ k : String) (v v₀ : ℚ)
    (rest : List (String × ℚ)) (h : k₀ ≠ k) :
    insertAdd ((k₀, v₀) :: rest) k v = (k₀, v₀) :: insertAdd rest k v := by
  simp [insertAdd, h]

/-- The `insertAdd` updates exactly the requested key, adding to an existing
entry or seeding a fresh one with a zero default. -/
theorem insertAdd_lookupQ (acc : List (String × ℚ)) (k : String) (v : ℚ)
    (k' : String) :
    lookupQ (insertAdd acc k v) k' =
      if k' = k then some ((lookupQ acc k').getD 0 + v) else lookupQ acc k' := by
  induction acc with
  | nil =>
      by_cases h : k' = k
      · subst h
        simp [insertAdd, lookupQ_cons, lookupQ]
      · simp [insertAdd, lookupQ_cons, lookupQ, h,
          show ¬k = k' from fun he => h he.symm]
  | cons p rest ih =>
      obtain ⟨k₀, v₀⟩ := p
      by_cases hk₀ : k₀ = k
      · subst hk₀
        rw [insertAdd_cons_eq]
        by_cases h : k' = k₀
        · subst h
          simp [lookupQ_cons]
        · simp [lookupQ_cons, h, show ¬k₀ = k' from fun he => h he.symm]
      · rw [insertAdd_cons_ne k₀ k v v₀ rest hk₀]
        simp only [lookupQ_cons]
        by_cases h : k₀ = k'
        · subst h
          simp [show ¬k₀ = k from hk₀]
        · simp only [if_neg h]
          exact ih

/-- Membership in the keys after an `insertAdd`. -/
theorem insertAdd_keysOf_mem (acc : List (String × ℚ)) (k : String) (v : ℚ)
    (k' : String) :
    k' ∈ keysOf (insertAdd acc k v) ↔ k' ∈ keysOf acc ∨ k' = k := by
  induction acc with
  | nil => simp [insertAdd, keysOf]
  | cons p rest ih =>
      obtain ⟨k₀, v₀⟩ := p
      by_cases hk₀ : k₀ = k
      · subst hk₀
        rw [insertAdd_cons_eq, keysOf_cons, keysOf_cons]
        simp only [List.mem_cons]
        tauto
      · rw [insertAdd_cons_ne k₀ k v v₀ rest hk₀, keysOf_cons, keysOf_cons]
        simp only [List.mem_cons, ih]
        tauto

/-- The `insertAdd` preserves key distinctness. -/
theorem insertAdd_nodup (acc : List (String × ℚ)) (k : String) (v : ℚ)
    (h : (keysOf acc).Nodup) : (keysOf (insertAdd acc k v)).Nodup := by
  induction acc with
  | nil => simp [insertAdd, keysOf]
  | cons p rest ih =>
      obtain ⟨k₀, v₀⟩ := p
      rw [keysOf_cons, List.nodup_cons] at h
      obtain ⟨hk₀, hrest⟩ := h
      by_cases hk : k₀ = k
      · subst hk
        rw [insertAdd_cons_eq, keysOf_cons, List.nodup_cons]
        exact ⟨hk₀, hrest⟩
      · rw [insertAdd_cons_ne k₀ k v v₀ rest hk, keysOf_cons, List.nodup_cons]
        refine ⟨?_, ih hrest⟩
        intro hmem
        rcases (insertAdd_keysOf_mem rest k v k₀).mp hmem with h0 | h0
        · exact hk₀ h0
        · exact hk h0

/-- The `insertAdd` adds exactly `v` to the total of the table values. -/
theorem insertAdd_sndSum (acc : List (String × ℚ)) (k : String) (v : ℚ) :
    ((insertAdd acc k v).map Prod.snd).sum = (acc.map Prod.snd).sum + v := by
  induction acc with
  | nil => simp [insertAdd]
  | cons p rest ih =>
      obtain ⟨k₀, v₀⟩ := p
      by_cases hk : k₀ = k
      · subst hk
        simp [insertAdd]
        ring
      · simp [insertAdd, hk, ih]
        ring

/-- A key with no included row contributes an empty group. -/
theorem groupSum_eq_zero (data : List Row) (x y k : String)
    (h : k ∉ (includedRows data x).map (keyOf x)) :
    groupSum data x y k = 0 := by
  rw [groupSum]
  have hnil : (includedRows data x).filter (fun d => keyOf x d == k) = [] := by
    rw [List.filter_eq_nil_iff]
    intro d hd
    simp only [beq_iff_eq]
    intro hk
    exact h (List.mem_map.mpr ⟨d, hd, hk⟩)
  rw [hnil]
  rfl

/-- Included rows of a cons with an excluded head. -/
theorem includedRows_cons_excluded (d : Row) (data : List Row) (x : String)
    (h : isExcludedRow x d = true) :
    includedRows (d :: data) x = includedRows data x := by
  rw [includedRows, includedRows, List.filter_cons]
  simp [h]

/-- Included rows of a cons with an included head. -/
theorem includedRows_cons_included (d : Row) (data : List Row) (x : String)
    (h : isExcludedRow x d = false) :
    includedRows (d :: data) x = d :: includedRows data x := by
  rw [includedRows, includedRows, List.filter_cons]
  simp [h]

/-- The group total of a cons: an excluded head contributes nothing. -/
theorem groupSum_cons_excluded (d : Row) (data : List Row) (x y k : String)
    (h : isExcludedRow x d = true) :
    groupSum (d :: data) x y k = groupSum data x y k := by
  rw [groupSum, groupSum, includedRows_cons_excluded d data x h]

/-- The group total of a cons: an included head contributes its coerced
metric exactly to its own group. -/
theorem groupSum_cons_included (d : Row) (data : List Row) (x y k : String)
    (h : isExcludedRow x d = false) :
    groupSum (d :: data) x y k =
      (if keyOf x d = k then parseVal (lookupField d y) else 0) +
        groupSum data x y k := by
  rw [groupSum, groupSum, includedRows_cons_included d data x h,
    List.filter_cons]
  by_cases hk : keyOf x d = k
  · simp [hk]
  · simp [hk]

/-- The `freq` fold looks up to the accumulated value plus the group total
of the remaining rows. -/
theorem foldFreq_lookupQ (x y : String) :
    ∀ (data : List Row) (acc : List (String × ℚ)) (k : String),
      lookupQ (data.foldl (freqStep x y) acc) k =
        if k ∈ (includedRows data x).map (keyOf x) then
          some ((lookupQ acc k).getD 0 + groupSum data x y k)
        else lookupQ acc k := by
  intro data
  induction data with
  | nil =>
      intro acc k
      simp [includedRows, groupSum]
  | cons d rest ih =>
      intro acc k
      rw [List.foldl_cons]
      by_cases hex : isExcludedRow x d
      · rw [show freqStep x y acc d = acc from by simp [freqStep, hex],
          includedRows_cons_excluded d rest x hex,
          groupSum_cons_excluded d rest x y k hex]
        exact ih acc k
      · have hex' : isExcludedRow x d = false := by simpa using hex
        rw [show freqStep x y acc d =
            insertAdd acc (keyOf x d) (parseVal (lookupField d y)) from by
          simp [freqStep, hex'],
          includedRows_cons_included d rest x hex',
          groupSum_cons_included d rest x y k hex', ih _ k,
          List.map_cons]
        simp only [insertAdd_lookupQ acc (keyOf x d) (parseVal (lookupField d y)) k,
          List.mem_cons]
        by_cases hk : k = keyOf x d
        · subst hk
          simp only [if_pos rfl, true_or, if_true]
          by_cases hmem : keyOf x d ∈ (includedRows rest x).map (keyOf x)
          · rw [if_pos hmem]
            simp [add_assoc]
          · rw [if_neg hmem, groupSum_eq_zero rest x y _ hmem]
            simp
        · have hk' : ¬keyOf x d = k := fun h => hk h.symm
          simp only [if_neg hk, if_neg hk']
          by_cases hmem : k ∈ (includedRows rest x).map (keyOf x)
          · rw [if_pos hmem, if_pos (Or.inr hmem)]
            simp
          · rw [if_neg hmem, if_neg (by
              rintro (h0 | h0)
              · exact hk h0
              · exact hmem h0)]

/-- The `freq` fold accumulates exactly the included rows' coerced metric
into the table total. -/
theorem foldFreq_sndSum (x y : String) :
    ∀ (data : List Row) (acc : List (String × ℚ)),
      ((data.foldl (freqStep x y) acc).map Prod.snd).sum =
        (acc.map Prod.snd).sum +
          ((includedRows data x).map (fun d => parseVal (lookupField d y))).sum := by
  intro data
  induction data with
  | nil =>
      intro acc
      simp [includedRows]
  | cons d rest ih =>
      intro acc
      rw [List.foldl_cons]
      by_cases hex : isExcludedRow x d
      · rw [show freqStep x y acc d = acc from by simp [freqStep, hex],
          includedRows_cons_excluded d rest x hex]
        exact ih acc
      · have hex' : isExcludedRow x d = false := by simpa using hex
        rw [show freqStep x y acc d =
            insertAdd acc (keyOf x d) (parseVal (lookupField d y)) from by
          simp [freqStep, hex'],
          includedRows_cons_included d rest x hex', ih _,
          insertAdd_sndSum]
        simp only [List.map_cons, List.sum_cons]
        ring

/-- Keys of the `freq` fold: accumulated keys plus the included rows' keys. -/
theorem foldFreq_keysOf (x y : String) :
    ∀ (data : List Row) (acc : List (String × ℚ)) (k : String),
      k ∈ keysOf (data.foldl (freqStep x y) acc) ↔
        k ∈ keysOf acc ∨ k ∈ (includedRows data x).map (keyOf x) := by
  intro data
  induction data with
  | nil =>
      intro acc k
      simp [includedRows]
  | cons d rest ih =>
      intro acc k
      rw [List.foldl_cons]
      by_cases hex : isExcludedRow x d
      · rw [show freqStep x y acc d = acc from by simp [freqStep, hex],
          includedRows_cons_excluded d rest x hex]
        exact ih acc k
      · have hex' : isExcludedRow x d = false := by simpa using hex
        rw [show freqStep x y acc d =
            insertAdd acc (keyOf x d) (parseVal (lookupField d y)) from by
          simp [freqStep, hex'],
          includedRows_cons_included d rest x hex']
        rw [ih _ k, insertAdd_keysOf_mem]
        simp only [List.map_cons, List.mem_cons]
        tauto

/-- The `freq` fold preserves key distinctness. -/
theorem foldFreq_nodup (x y : String) :
    ∀ (data : List Row) (acc : List (String × ℚ)),
      (keysOf acc).Nodup → (keysOf (data.foldl (freqStep x y) acc)).Nodup := by
  intro data
  induction data with
  | nil => intro acc h; exact h
  | cons d rest ih =>
      intro acc h
      rw [List.foldl_cons]
      by_cases hex : isExcludedRow x d
      · rw [show freqStep x y acc d = acc from by simp [freqStep, hex]]
        exact ih acc h
      · have hex' : isExcludedRow x d = false := by simpa using hex
        rw [show freqStep x y acc d =
            insertAdd acc (keyOf x d) (parseVal (lookupField d y)) from by
          simp [freqStep, hex']]
        exact ih _ (insertAdd_nodup acc _ _ h)

/-- On a distinct-keys table, membership coincides with lookup. -/
theorem lookupQ_mem_iff (acc : List (String × ℚ)) (k : String) (v : ℚ)
    (h : (keysOf acc).Nodup) : (k, v) ∈ acc ↔ lookupQ acc k = some v := by
  induction acc with
  | nil => simp [lookupQ]
  | cons p rest ih =>
      obtain ⟨k₀, v₀⟩ := p
      rw [keysOf_cons, List.nodup_cons] at h
      obtain ⟨hk₀, hrest⟩ := h
      rw [lookupQ_cons, List.mem_cons]
      by_cases hk : k₀ = k
      · subst hk
        rw [if_pos rfl]
        constructor
        · rintro (h0 | h0)
          · rw [Prod.mk.injEq] at h0
            rw [h0.2]
          · exact absurd (List.mem_map.mpr ⟨(k₀, v), h0, rfl⟩) hk₀
        · intro h0
          left
          rw [Option.some.injEq] at h0
          rw [h0]
      · rw [if_neg hk, ← ih hrest]
        constructor
        · rintro (h0 | h0)
          · rw [Prod.mk.injEq] at h0
            exact absurd h0.1.symm hk
          · exact h0
        · exact fun h0 => Or.inr h0

/-- Comparison by descending value is total. -/
instance : IsTotal (String × ℚ) (fun a b => b.2 ≤ a.2) :=
  ⟨fun a b => le_total b.2 a.2⟩

/-- Comparison by descending value is transitive. -/
instance : IsTrans (String × ℚ) (fun a b => b.2 ≤ a.2) :=
  ⟨fun _ _ _ hab hbc => le_trans hbc hab⟩

/-- C1 (amended): the aggregation first substitutes the key `"N/A"` for a
falsy (absent or empty-string) category value, then excludes rows whose
trimmed key is empty or case-insensitively `"null"`; per surviving group it
sums the coerced metric; the output is sorted descending by summed value
(stably, so ties keep first-encounter order of the grouping table), its
values total exactly the included rows' coerced metric, and its entries are
precisely the groups of the included rows. -/
theorem getCategoricalStats_spec (data : List Row) (x y : String) :
    List.Sorted (fun a b => b.2 ≤ a.2) (getCategoricalStats data x y) ∧
    ((getCategoricalStats data x y).map Prod.snd).sum =
      ((includedRows data x).map (fun d => parseVal (lookupField d y))).sum ∧
    (∀ k v, (k, v) ∈ getCategoricalStats data x y →
      k ∈ (includedRows data x).map (keyOf x) ∧ v = groupSum data x y k) ∧
    (∀ d ∈ includedRows data x,
      (keyOf x d, groupSum data x y (keyOf x d)) ∈ getCategoricalStats data x y) := by
  have hperm : List.Perm (getCategoricalStats data x y) (buildFreq data x y) :=
    List.perm_insertionSort _ _
  have hnodup : (keysOf (buildFreq data x y)).Nodup :=
    foldFreq_nodup x y data [] (by simp [keysOf])
  refine ⟨List.sorted_insertionSort _ _, ?_, ?_, ?_⟩
  · rw [(hperm.map Prod.snd).sum_eq]
    rw [buildFreq, foldFreq_sndSum x y data []]
    simp
  · intro k v hmem
    have hmem' : (k, v) ∈ buildFreq data x y := hperm.mem_iff.mp hmem
    have hlook : lookupQ (buildFreq data x y) k = some v :=
      (lookupQ_mem_iff _ k v hnodup).mp hmem'
    rw [buildFreq, foldFreq_lookupQ x y data [] k] at hlook
    by_cases hk : k ∈ (includedRows data x).map (keyOf x)
    · rw [if_pos hk] at hlook
      refine ⟨hk, ?_⟩
      have hv := Option.some.inj hlook
      simpa [lookupQ] using hv.symm
    · rw [if_neg hk] at hlook
      simp [lookupQ] at hlook
  · intro d hd
    have hk : keyOf x d ∈ (includedRows data x).map (keyOf x) :=
      List.mem_map_of_mem _ hd
    have hlook : lookupQ (buildFreq data x y) (keyOf x d) =
        some (groupSum data x y (keyOf x d)) := by
      rw [buildFreq, foldFreq_lookupQ x y data [] _, if_pos hk]
      simp [lookupQ]
    exact hperm.mem_iff.mpr
      ((lookupQ_mem_iff _ _ _ hnodup).mpr hlook)

/-- The row of the C1 counterexample: an empty-string category value. -/
def cexCatRow : Row := [("x", ""), ("y", "5")]

/-- C1 counterexample: this row's stringified, trimmed category value is
empty, so the claim excludes it (the aggregation would be empty with total
`0`); the code instead substitutes `'N/A'` for the falsy value and returns
the row grouped under `"N/A"` with its metric included. -/
theorem getCategoricalStats_counterexample :
    lookupField cexCatRow "x" = some "" ∧
    getCategoricalStats [cexCatRow] "x" "y" = [("N/A", 5)] := by
  refine ⟨by decide, ?_⟩
  simp +decide [getCategoricalStats, buildFreq, freqStep, isExcludedRow,
    keyOf, jsOrString, jsTrim, jsToLower, lookupField, insertAdd, parseVal,
    parseFloatQ, stripNonNumeric, jsOrEmpty, digitsToNat, fracToRat,
    List.insertionSort, List.orderedInsert, cexCatRow]

/-- Witness for C1 at a concrete row list: the output total equals the
included rows' total. -/
theorem getCategoricalStats_spec_witness :
    ((getCategoricalStats [[("x", "a"), ("y", "2")], [("x", "null"), ("y", "7")]]
        "x" "y").map Prod.snd).sum =
      ((includedRows [[("x", "a"), ("y", "2")], [("x", "null"), ("y", "7")]]
          "x").map (fun d => parseVal (lookupField d "y"))).sum :=
  (getCategoricalStats_spec
    [[("x", "a"), ("y", "2")], [("x", "null"), ("y", "7")]] "x" "y").2.1

/-! Claim C7 — repeating the audit on unchanged data -/

/-- Rounding fixes zero. -/
theorem roundTo_zero {α : Type} [LinearOrderedField α] [FloorRing α]
    (d : ℕ) : roundTo d (0 : α) = 0 := by
  simp [roundTo]

/-- The assembled result records the main statistics' sum as total volume. -/
theorem buildAuditResult_totalVolume (x y : String) (m : List Row)
    (ch : String) (model : List (String × FullStats)) (ms : FullStats)
    (shifts : Shifts ℚ) (t i : String) (dd : Bool) :
    (buildAuditResult x y m ch model ms shifts t i dd).metrics.totalVolume =
      ms.sum := rfl

/-- The assembled result records the main statistics' max as peak
magnitude. -/
theorem buildAuditResult_peakMagnitude (x y : String) (m : List Row)
    (ch : String) (model : List (String × FullStats)) (ms : FullStats)
    (shifts : Shifts ℚ) (t i : String) (dd : Bool) :
    (buildAuditResult x y m ch model ms shifts t i dd).metrics.peakMagnitude =
      ms.max := rfl

/-- Without history the shifts are zero. -/
theorem auditShifts_nil (ms : FullStats) : auditShifts ms [] = ⟨0, 0⟩ := rfl

/-- Equality of two analysis results on every field except `trackId`,
`timestamp` and `isDelta`. -/
def EqExceptVolatile (r₁ r₂ : AuditResult) : Prop :=
  r₁.version = r₂.version ∧ r₁.hash = r₂.hash ∧ r₁.labels = r₂.labels ∧
  r₁.statisticsModel = r₂.statisticsModel ∧ r₁.mainStats = r₂.mainStats ∧
  r₁.metrics = r₂.metrics ∧ r₁.statistics = r₂.statistics ∧
  r₁.interpretation = r₂.interpretation ∧
  r₁.biInterpretation = r₂.biInterpretation ∧
  r₁.impactMatrix = r₂.impactMatrix ∧ r₁.advisory = r₂.advisory ∧
  r₁.peaks = r₂.peaks ∧ r₁.ranges = r₂.ranges ∧
  r₁.dominantDrivers = r₂.dominantDrivers ∧
  r₁.distributions = r₂.distributions ∧
  r₁.reportSections = r₂.reportSections

/-- Two results assembled from the same data, hash, statistics and shifts
agree on everything except the volatile fields. -/
theorem buildAuditResult_eqExcept (x y : String) (m : List Row) (ch : String)
    (model : List (String × FullStats)) (ms : FullStats) (shifts : Shifts ℚ)
    (t₁ i₁ : String) (d₁ : Bool) (t₂ i₂ : String) (d₂ : Bool) :
    EqExceptVolatile (buildAuditResult x y m ch model ms shifts t₁ i₁ d₁)
      (buildAuditResult x y m ch model ms shifts t₂ i₂ d₂) :=
  ⟨rfl, rfl, rfl, rfl, rfl, rfl, rfl, rfl, rfl, rfl, rfl, rfl, rfl, rfl, rfl,
    rfl⟩

/-- C7 (amended): with the in-memory audit history empty before the first
run, two consecutive audits of the same working row set and coordinates
produce results with equal `contentHash` and equal statistics that differ
only in `trackId`, `timestamp` and the `isDelta` flag (the claim as stated,
"only trackId and timestamp", fails on `isDelta` — see the counterexample;
with a non-empty prior history the history-dependent shift fields diverge as
well, which forces the empty-history hypothesis here). -/
theorem runAudit_repeat (x y : String) (m : List Row)
    (lastHash : Option String) (t₁ i₁ t₂ i₂ : String) (r₁ r₂ : AuditResult)
    (s₁ s₂ : Session)
    (h₁ : runAudit ⟨lastHash, []⟩ x y m t₁ i₁ = some (r₁, s₁))
    (h₂ : runAudit s₁ x y m t₂ i₂ = some (r₂, s₂)) :
    r₁.hash = r₂.hash ∧ r₁.statistics = r₂.statistics ∧
      EqExceptVolatile r₁ r₂ := by
  rcases hms : auditMainStats m y with _ | ms
  · simp [runAudit, runAuditLogic, hms] at h₁
  · simp only [runAudit, runAuditLogic, hms, List.take_nil, auditShifts_nil,
      Option.some.injEq] at h₁
    obtain ⟨hr₁, hs₁⟩ := Prod.mk.injEq .. ▸ h₁
    subst hr₁
    subst hs₁
    have hsh : auditShifts ms
        [buildAuditResult x y m (generateHash m) (auditStatisticsModel m) ms
          ⟨0, 0⟩ t₁ i₁ (decide (lastHash ≠ some (generateHash m)))] =
        ⟨0, 0⟩ := by
      simp [auditShifts, buildAuditResult_totalVolume,
        buildAuditResult_peakMagnitude, roundTo_zero]
    simp only [runAudit, runAuditLogic, hms, List.take_succ_cons,
      List.take_nil, hsh, Option.some.injEq] at h₂
    obtain ⟨hr₂, hs₂⟩ := Prod.mk.injEq .. ▸ h₂
    subst hr₂
    subst hs₂
    exact ⟨rfl, rfl,
      buildAuditResult_eqExcept x y m (generateHash m)
        (auditStatisticsModel m) ms ⟨0, 0⟩ t₁ i₁ _ t₂ i₂ _⟩

/-- The working row set of the C7 scenario. -/
def cexRows : List Row := [[("a", "p"), ("b", "1")], [("a", "q"), ("b", "2")]]

/-- The main statistics of the C7 scenario (the `b` column of `cexRows`). -/
def cexStats : FullStats :=
  (auditMainStats cexRows "b").getD ⟨0, 0, 0, 0, 0, 0, 0, 0, 0, 0⟩

/-- The first run's result in the C7 scenario (fresh session: no last hash,
empty history). -/
noncomputable def cexB₁ : AuditResult :=
  buildAuditResult "a" "b" cexRows (generateHash cexRows)
    (auditStatisticsModel cexRows) cexStats (auditShifts cexStats [])
    "T1" "TS1" (decide ((none : Option String) ≠ some (generateHash cexRows)))

/-- The session after the first run. -/
noncomputable def cexS₁ : Session := ⟨some cexB₁.hash, [cexB₁]⟩

/-- The second run's result on the unchanged row set. -/
noncomputable def cexB₂ : AuditResult :=
  buildAuditResult "a" "b" cexRows (generateHash cexRows)
    (auditStatisticsModel cexRows) cexStats (auditShifts cexStats [cexB₁])
    "T2" "TS2" (decide (cexS₁.lastHash ≠ some (generateHash cexRows)))

/-- The session after the second run. -/
noncomputable def cexS₂ : Session := ⟨some cexB₂.hash, [cexB₂, cexB₁]⟩

set_option maxRecDepth 4096 in
/-- C7 counterexample: running the audit twice on the unchanged `cexRows`
from a fresh session yields the two results above, and they differ in
`isDelta` (`true` then `false`) — not only in `trackId` and `timestamp` as
the claim states. -/
theorem runAudit_isDelta_counterexample :
    runAudit ⟨none, []⟩ "a" "b" cexRows "T1" "TS1" = some (cexB₁, cexS₁) ∧
    runAudit cexS₁ "a" "b" cexRows "T2" "TS2" = some (cexB₂, cexS₂) ∧
    cexB₁.isDelta = true ∧ cexB₂.isDelta = false := by
  refine ⟨rfl, rfl, rfl, rfl⟩

/-- Witness for C7 on the same concrete scenario: the two runs' results have
equal hash, equal statistics, and agree outside the volatile fields. -/
theorem runAudit_repeat_witness :
    cexB₁.hash = cexB₂.hash ∧ cexB₁.statistics = cexB₂.statistics ∧
      EqExceptVolatile cexB₁ cexB₂ :=
  runAudit_repeat "a" "b" cexRows none "T1" "TS1" "T2" "TS2" cexB₁ cexB₂
    cexS₁ cexS₂ rfl rfl

end BI
